import Mathlib

/-!
Shallow embedding of the view-tracking cache and batched-persistence
pipeline of `backend/src/services/views.py`, `backend/src/tasks/flush_views.py`
and `backend/src/models/post_view.py`.

Modelling choices:
* The Redis cache (`decode_responses=True`, so values are strings) is a
  record holding, per user id, the set `user:{u}:viewed_posts` (as a
  duplicate-free list of post ids), the TTL last assigned to that key, and
  the global set `pending_views` (a duplicate-free list of strings).
  `SADD` is add-if-absent, matching Redis set semantics.
* The durable store (`post_views` table, unique on `(user, post)`) is a
  list of `PostView` rows; `bulk_create(ignore_conflicts=True)` inserts
  rows one at a time, skipping any row whose `(user_id, post_id)` pair is
  already present (PostgreSQL `ON CONFLICT DO NOTHING`, which also skips
  intra-batch duplicates).
* Timestamps travel as the literal string rendered into the pending entry
  (`f"{user_id}:{post_id}:{timestamp}"`); the flush path validates that the
  third field parses as a Python float (`pyFloatOk`, modelling the ASCII
  sign/digits/decimal-point fragment of `float(...)`) and stores the
  literal in `viewed_at`.  Floating-point value semantics are not
  interpreted; no claim depends on the numeric value of a timestamp.
* Exceptions are modelled by `Option`: `flush_to_db` returns the state
  after the call together with `some n` (normal return `n`) or `none`
  (the bulk-write raised and the exception propagated to the caller).
* Interleaving of concurrent `mark_viewed` calls with one flush tick is
  modelled by a `conc` parameter: strings SADDed to `pending_views` by
  other tasks between the `SMEMBERS` snapshot and the end of the tick.
-/

/-- Python `str.split(":")` on the character list of a string. -/
def splitColonChars : List Char → List (List Char)
  | [] => [[]]
  | c :: rest =>
    let r := splitColonChars rest
    if c = ':' then [] :: r
    else
      match r with
      | h :: t => (c :: h) :: t
      | [] => [[c]]

/-- Python `item.split(":")`. -/
def pySplitColon (s : String) : List String :=
  (splitColonChars s.toList).map List.asString

/-- Decimal value of a nonempty all-digit character list. -/
def digitsVal : List Char → Option Nat
  | [] => none
  | cs =>
    if cs.all Char.isDigit then
      some (cs.foldl (fun a c => a * 10 + (c.toNat - 48)) 0)
    else none

/-- Strip leading and trailing whitespace from a character list. -/
def stripWs (cs : List Char) : List Char :=
  ((cs.dropWhile Char.isWhitespace).reverse.dropWhile Char.isWhitespace).reverse

/-- Python `int(s)` on the ASCII fragment (optional surrounding whitespace,
optional sign, nonempty digit run); `none` models a raised `ValueError`. -/
def pyInt (s : String) : Option Int :=
  match stripWs s.toList with
  | '+' :: rest => (digitsVal rest).map Int.ofNat
  | '-' :: rest => (digitsVal rest).map (fun n => -(n : Int))
  | cs => (digitsVal cs).map Int.ofNat

/-- Python `float(s)` acceptance on the ASCII fragment: optional surrounding
whitespace, optional sign, then digits containing at most one decimal point
and at least one digit.  `false` models a raised `ValueError`. -/
def pyFloatOk (s : String) : Bool :=
  let body :=
    match stripWs s.toList with
    | '+' :: rest => rest
    | '-' :: rest => rest
    | cs => cs
  body.any Char.isDigit &&
    body.all (fun c => c.isDigit || c = '.') &&
    (body.filter (fun c => c = '.')).length ≤ 1

/-- A row of the `post_views` table (`backend/src/models/post_view.py`).
`viewed_at` keeps the timestamp literal passed to
`datetime.fromtimestamp(float(timestamp))`; its numeric value is never
interpreted by the pipeline. -/
structure PostView where
  user_id : Int
  post_id : Int
  viewed_at : String
deriving Repr, DecidableEq

/-- The Redis state used by the view service: per-user viewed sets, the TTL
last set on each viewed-set key, and the global `pending_views` set. -/
structure CacheState where
  viewed : Int → List Int
  ttl : Int → Option Nat
  pending : List String

/-- The whole system state: Redis cache plus the durable `post_views` table. -/
structure SysState where
  cache : CacheState
  db : List PostView

def emptyCache : CacheState := ⟨fun _ => [], fun _ => none, []⟩

def initState : SysState := ⟨emptyCache, []⟩

/-- Redis `SADD` on an integer set. -/
def saddInt (l : List Int) (x : Int) : List Int :=
  if x ∈ l then l else l ++ [x]

/-- Redis `SADD` on a string set. -/
def saddStr (l : List String) (x : String) : List String :=
  if x ∈ l then l else l ++ [x]

def saddAllStr (l : List String) (xs : List String) : List String :=
  xs.foldl saddStr l

/-- `VIEW_EXPIRY_SECONDS = 7 * 24 * 60 * 60` from `ViewService`. -/
def VIEW_EXPIRY_SECONDS : Nat := 7 * 24 * 60 * 60

/-- The pending-log entry `f"{user_id}:{post_id}:{timestamp}"`; `now` is the
rendering of `datetime.utcnow().timestamp()` taken once per call. -/
def pendingEntry (user_id post_id : Int) (now : String) : String :=
  toString user_id ++ ":" ++ toString post_id ++ ":" ++ now

/-- One iteration of the `for post_id in post_ids` loop of `mark_viewed`:
`pipe.sadd(user_key, post_id)` and `pipe.sadd(pending_views_key(), entry)`. -/
def markStep (now : String) (user_id : Int) (c : CacheState) (post_id : Int) :
    CacheState :=
  { c with
    viewed := fun v => if v = user_id then saddInt (c.viewed v) post_id else c.viewed v
    pending := saddStr c.pending (pendingEntry user_id post_id now) }

/-- `ViewService.mark_viewed(user_id, post_ids)` at wall-clock reading `now`:
no-op on an empty list, otherwise SADD every post id to the user's viewed
set, SADD one pending entry per post id, and set the viewed-set TTL. -/
def mark_viewed (now : String) (user_id : Int) (post_ids : List Int)
    (c : CacheState) : CacheState :=
  if post_ids.isEmpty then c
  else
    let c1 := post_ids.foldl (markStep now user_id) c
    { c1 with
      ttl := fun v => if v = user_id then some VIEW_EXPIRY_SECONDS else c1.ttl v }

/-- `ViewService.has_viewed`: `SISMEMBER` on the user's viewed set. -/
def has_viewed (c : CacheState) (user_id post_id : Int) : Bool :=
  (c.viewed user_id).contains post_id

/-- `ViewService.get_viewed_posts`: `SMEMBERS` of the user's viewed set. -/
def get_viewed_posts (c : CacheState) (user_id : Int) : List Int :=
  c.viewed user_id

/-- `ViewService.filter_unviewed`: early `[]` on empty input, else the list
comprehension `[pid for pid in post_ids if pid not in viewed]`. -/
def filter_unviewed (c : CacheState) (user_id : Int) (post_ids : List Int) :
    List Int :=
  if post_ids.isEmpty then []
  else post_ids.filter (fun pid => !(get_viewed_posts c user_id).contains pid)

/-- The `try` body of the parse loop in `flush_to_db`: split on `:` into
exactly three fields, `int(...)` the first two, `float(...)` the third;
`none` models a caught `ValueError`/`TypeError` (the `continue` branch). -/
def parsePendingEntry (item : String) : Option PostView :=
  match pySplitColon item with
  | [u, p, t] =>
    match pyInt u, pyInt p with
    | some uid, some pid => if pyFloatOk t then some ⟨uid, pid, t⟩ else none
    | _, _ => none
  | _ => none

/-- One row of the bulk insert with `ignore_conflicts=True`: the row is
inserted unless a row with the same `(user_id, post_id)` pair is already
present (the table's `unique_together` constraint). -/
def bulkStep (acc : List PostView) (r : PostView) : List PostView :=
  if acc.any (fun x => x.user_id = r.user_id && x.post_id = r.post_id)
  then acc else acc ++ [r]

/-- `PostView.bulk_create(views, ignore_conflicts=True)`: insert each row
unless its `(user_id, post_id)` pair is already present (this also skips
intra-batch duplicates, as PostgreSQL `ON CONFLICT DO NOTHING` does). -/
def bulkCreateIgnore (db : List PostView) (rows : List PostView) : List PostView :=
  rows.foldl bulkStep db

/-- `ViewService.flush_to_db`.  `writeOk` is whether the durable store's
bulk write succeeds if issued this tick; `conc` are the strings SADDed to
`pending_views` by concurrent `mark_viewed` calls after the `SMEMBERS`
snapshot.  Returns the state after the call and `some count` on normal
return, `none` when the bulk write raised (the exception propagates). -/
def flush_to_db (writeOk : Bool) (conc : List String) (s : SysState) :
    SysState × Option Nat :=
  let pending := s.cache.pending
  if pending.isEmpty then
    ({ s with cache.pending := saddAllStr s.cache.pending conc }, some 0)
  else
    let views_to_create := pending.filterMap parsePendingEntry
    let pend2 := saddAllStr s.cache.pending conc
    if views_to_create.isEmpty then
      ({ s with cache.pending := [] }, some 0)
    else if writeOk then
      ({ cache := { s.cache with pending := [] }
         db := bulkCreateIgnore s.db views_to_create },
       some views_to_create.length)
    else
      ({ s with cache.pending := pend2 }, none)

/-- Outcome of one tick of `flush_views_job`: the state after the tick, the
count reported by `flush_to_db` (0 when it raised), and whether the tick
completed without an exception (the `except` branch logs and swallows it). -/
structure TickResult where
  state : SysState
  flushed : Nat
  ok : Bool

/-- The `try`/`except` body of one loop iteration of `flush_views_job`. -/
def flushTick (writeOk : Bool) (conc : List String) (s : SysState) : TickResult :=
  match flush_to_db writeOk conc s with
  | (s1, some n) => ⟨s1, n, true⟩
  | (s1, none) => ⟨s1, 0, false⟩

/-- State of the scheduler loop: the system state plus the number of ticks
executed and the total seconds spent in `asyncio.sleep(300)` calls. -/
structure SchedState where
  sys : SysState
  ticks : Nat
  slept : Nat

/-- One full iteration of the `while True` loop of `flush_views_job`:
run the tick (errors caught and logged inside), then `asyncio.sleep(300)`. -/
def flush_views_job_step (writeOk : Bool) (conc : List String)
    (st : SchedState) : SchedState :=
  { sys := (flushTick writeOk conc st.sys).state
    ticks := st.ticks + 1
    slept := st.slept + 300 }

/-- The scheduler loop run over a finite schedule of environments (for each
tick: whether the durable write would succeed, and the concurrent pending
additions).  The loop itself has no exit; a finite schedule models external
cancellation after that many ticks. -/
def flush_views_job_run (sched : List (Bool × List String)) (st : SchedState) :
    SchedState :=
  sched.foldl (fun st p => flush_views_job_step p.1 p.2 st) st

/-- A client-visible operation of the pipeline, for whole-history claims. -/
inductive Op where
  | mark (now : String) (user_id : Int) (post_ids : List Int)
  | flush (writeOk : Bool) (conc : List String)

def applyOp (s : SysState) : Op → SysState
  | .mark now u ids => { s with cache := mark_viewed now u ids s.cache }
  | .flush wOk conc => (flush_to_db wOk conc s).1

def applyOps (s : SysState) (ops : List Op) : SysState :=
  ops.foldl applyOp s

/-- The `(user_id, post_id)` pairs of the durable rows. -/
def dbPairs (db : List PostView) : List (Int × Int) :=
  db.map (fun r => (r.user_id, r.post_id))

/-! ### Basic lemmas about the Redis-set and durable-store primitives -/

lemma saddStr_mem (l : List String) (s x : String) :
    x ∈ saddStr l s ↔ x ∈ l ∨ x = s := by
  unfold saddStr
  split
  · constructor
    · exact Or.inl
    · rintro (h | rfl) <;> assumption
  · simp [List.mem_append]

lemma saddInt_mem (l : List Int) (i x : Int) :
    x ∈ saddInt l i ↔ x ∈ l ∨ x = i := by
  unfold saddInt
  split
  · constructor
    · exact Or.inl
    · rintro (h | rfl) <;> assumption
  · simp [List.mem_append]

lemma saddAllStr_nil (l : List String) : saddAllStr l [] = l := rfl

lemma foldMark_viewed_mem (now : String) (u : Int) :
    ∀ (ids : List Int) (c : CacheState) (p : Int),
      p ∈ (ids.foldl (markStep now u) c).viewed u ↔ p ∈ c.viewed u ∨ p ∈ ids := by
  intro ids
  induction ids with
  | nil => simp
  | cons i t ih =>
    intro c p
    rw [List.foldl_cons, ih]
    simp [markStep, saddInt_mem]
    tauto

lemma foldMark_viewed_ne (now : String) (u : Int) :
    ∀ (ids : List Int) (c : CacheState) (v : Int), v ≠ u →
      (ids.foldl (markStep now u) c).viewed v = c.viewed v := by
  intro ids
  induction ids with
  | nil => intro c v _; rfl
  | cons i t ih =>
    intro c v hv
    rw [List.foldl_cons, ih _ _ hv]
    simp [markStep, if_neg hv]

lemma foldMark_ttl (now : String) (u : Int) :
    ∀ (ids : List Int) (c : CacheState),
      (ids.foldl (markStep now u) c).ttl = c.ttl := by
  intro ids
  induction ids with
  | nil => intro c; rfl
  | cons i t ih => intro c; rw [List.foldl_cons, ih]; rfl

lemma foldMark_pending_mem (now : String) (u : Int) :
    ∀ (ids : List Int) (c : CacheState) (e : String),
      e ∈ (ids.foldl (markStep now u) c).pending ↔
        e ∈ c.pending ∨ ∃ p, p ∈ ids ∧ e = pendingEntry u p now := by
  intro ids
  induction ids with
  | nil => simp
  | cons i t ih =>
    intro c e
    rw [List.foldl_cons, ih]
    simp only [markStep, saddStr_mem, List.mem_cons]
    constructor
    · rintro ((h | rfl) | ⟨p, hp, rfl⟩)
      · exact Or.inl h
      · exact Or.inr ⟨i, Or.inl rfl, rfl⟩
      · exact Or.inr ⟨p, Or.inr hp, rfl⟩
    · rintro (h | ⟨p, hp | hp, rfl⟩)
      · exact Or.inl (Or.inl h)
      · exact Or.inl (Or.inr (by rw [hp]))
      · exact Or.inr ⟨p, hp, rfl⟩

/-- On a non-empty pending log with a succeeding durable store, one flush call
clears the whole `pending_views` key, applies the bulk insert of the parsed
entries (a no-op insert when none parse), and returns the parsed count. -/
lemma flush_ok_parts (s : SysState) (conc : List String)
    (h : s.cache.pending ≠ []) :
    flush_to_db true conc s =
      ({ cache := { s.cache with pending := [] }
         db := bulkCreateIgnore s.db (s.cache.pending.filterMap parsePendingEntry) },
       some (s.cache.pending.filterMap parsePendingEntry).length) := by
  unfold flush_to_db
  rw [if_neg (by simpa [List.isEmpty_iff] using h)]
  by_cases hv : (s.cache.pending.filterMap parsePendingEntry).isEmpty
  · rw [if_pos hv]
    rw [List.isEmpty_iff] at hv
    rw [hv]
    rfl
  · rw [if_neg hv, if_pos rfl]

/-- On a non-empty pending log none of whose entries parse, flush skips the
bulk write entirely (so it cannot raise), still deletes the whole pending
log, and returns 0. -/
lemma flush_noparse_parts (s : SysState) (wOk : Bool) (conc : List String)
    (h : s.cache.pending ≠ [])
    (hall : s.cache.pending.filterMap parsePendingEntry = []) :
    flush_to_db wOk conc s = ({ s with cache.pending := [] }, some 0) := by
  unfold flush_to_db
  rw [if_neg (by simpa [List.isEmpty_iff] using h)]
  rw [if_pos (by simp [hall])]

/-- On an empty pending log, flush returns 0 immediately; with no concurrent
additions, the state is exactly unchanged (in particular no durable write). -/
lemma flush_empty_parts (s : SysState) (h : s.cache.pending = []) :
    flush_to_db true [] s = (s, some 0) := by
  unfold flush_to_db
  rw [if_pos (by simp [h])]
  rfl

/-- On a non-empty pending log with at least one parsed entry and a failing
durable store, flush propagates the exception; the only cache change is the
concurrent additions, which are not the flusher's own writes. -/
lemma flush_fail_parts (s : SysState) (conc : List String)
    (h : s.cache.pending.filterMap parsePendingEntry ≠ []) :
    flush_to_db false conc s =
      ({ s with cache.pending := saddAllStr s.cache.pending conc }, none) := by
  have hp : s.cache.pending ≠ [] := by
    intro he
    exact h (by rw [he]; rfl)
  unfold flush_to_db
  rw [if_neg (by simpa [List.isEmpty_iff] using hp)]
  rw [if_neg (by simpa [List.isEmpty_iff] using h)]
  rfl

lemma filterMap_erase_of_none {α β : Type} [DecidableEq α] (f : α → Option β)
    (b : α) (hb : f b = none) :
    ∀ l : List α, (l.erase b).filterMap f = l.filterMap f := by
  intro l
  induction l with
  | nil => rfl
  | cons a t ih =>
    by_cases hab : a = b
    · subst hab
      rw [List.erase_cons_head, List.filterMap_cons_none hb]
    · rw [List.erase_cons_tail (by simpa using hab)]
      cases hfa : f a with
      | none => rw [List.filterMap_cons_none hfa, List.filterMap_cons_none hfa, ih]
      | some v => rw [List.filterMap_cons_some hfa, List.filterMap_cons_some hfa, ih]

lemma dbPairs_append (db : List PostView) (r : PostView) :
    dbPairs (db ++ [r]) = dbPairs db ++ [(r.user_id, r.post_id)] := by
  simp [dbPairs]

/-- The one-row step of `bulkCreateIgnore` skips exactly the rows whose
`(user_id, post_id)` pair is already present. -/
lemma bulkStep_pair_cases (db : List PostView) (r : PostView) :
    (db.any (fun x => x.user_id = r.user_id && x.post_id = r.post_id) = true ↔
      (r.user_id, r.post_id) ∈ dbPairs db) := by
  rw [List.any_eq_true]
  unfold dbPairs
  rw [List.mem_map]
  constructor
  · rintro ⟨x, hx, hpx⟩
    simp only [Bool.and_eq_true, decide_eq_true_eq] at hpx
    exact ⟨x, hx, by rw [hpx.1, hpx.2]⟩
  · rintro ⟨x, hx, hpx⟩
    refine ⟨x, hx, ?_⟩
    rw [Prod.mk.injEq] at hpx
    simp only [Bool.and_eq_true, decide_eq_true_eq]
    exact hpx

lemma bulkCreateIgnore_mono_pairs :
    ∀ (rows : List PostView) (db : List PostView) (q : Int × Int),
      q ∈ dbPairs db → q ∈ dbPairs (bulkCreateIgnore db rows) := by
  intro rows
  induction rows with
  | nil => intro db q hq; exact hq
  | cons r rs ih =>
    intro db q hq
    show q ∈ dbPairs (bulkCreateIgnore (bulkStep db r) rs)
    apply ih
    unfold bulkStep
    split
    · exact hq
    · rw [dbPairs_append]
      exact List.mem_append_left _ hq

lemma bulkCreateIgnore_pair_mem :
    ∀ (rows : List PostView) (db : List PostView) (r : PostView),
      r ∈ rows → (r.user_id, r.post_id) ∈ dbPairs (bulkCreateIgnore db rows) := by
  intro rows
  induction rows with
  | nil => intro db r hr; cases hr
  | cons x rs ih =>
    intro db r hr
    rcases List.mem_cons.mp hr with rfl | hr
    · show (r.user_id, r.post_id) ∈ dbPairs (bulkCreateIgnore (bulkStep db r) rs)
      apply bulkCreateIgnore_mono_pairs
      unfold bulkStep
      split
      · rename_i hany
        exact (bulkStep_pair_cases db r).mp hany
      · rw [dbPairs_append]
        exact List.mem_append_right _ (by simp)
    · exact ih _ r hr

lemma bulkCreateIgnore_pairs_nodup :
    ∀ (rows : List PostView) (db : List PostView),
      (dbPairs db).Nodup → (dbPairs (bulkCreateIgnore db rows)).Nodup := by
  intro rows
  induction rows with
  | nil => intro db hdb; exact hdb
  | cons r rs ih =>
    intro db hdb
    show (dbPairs (bulkCreateIgnore (bulkStep db r) rs)).Nodup
    apply ih
    unfold bulkStep
    split
    · exact hdb
    · rename_i hany
      rw [dbPairs_append]
      have hnot : (r.user_id, r.post_id) ∉ dbPairs db := by
        intro hmem
        exact hany ((bulkStep_pair_cases db r).mpr hmem)
      simp [List.nodup_append, hdb, hnot]

/-! ### Invariant lemmas for the durable store across whole histories -/

lemma applyOp_db_pairs_nodup (s : SysState) (o : Op)
    (h : (dbPairs s.db).Nodup) : (dbPairs (applyOp s o).db).Nodup := by
  cases o with
  | mark now u ids => exact h
  | flush wOk conc =>
    show (dbPairs (flush_to_db wOk conc s).1.db).Nodup
    unfold flush_to_db
    dsimp only
    split
    · exact h
    · split
      · exact h
      · split
        · exact bulkCreateIgnore_pairs_nodup _ s.db h
        · exact h

lemma applyOps_db_pairs_nodup :
    ∀ (ops : List Op) (s : SysState),
      (dbPairs s.db).Nodup → (dbPairs (applyOps s ops).db).Nodup := by
  intro ops
  induction ops with
  | nil => intro s h; exact h
  | cons o rest ih =>
    intro s h
    exact ih (applyOp s o) (applyOp_db_pairs_nodup s o h)

lemma nodup_pairs_filter_le_one :
    ∀ (db : List PostView), (dbPairs db).Nodup → ∀ u p : Int,
      (db.filter (fun r => r.user_id = u && r.post_id = p)).length ≤ 1 := by
  intro db
  induction db with
  | nil => intro _ u p; simp
  | cons r t ih =>
    intro hnd u p
    rw [show dbPairs (r :: t) = (r.user_id, r.post_id) :: dbPairs t from rfl,
      List.nodup_cons] at hnd
    obtain ⟨hnotin, htail⟩ := hnd
    by_cases hpred : (r.user_id = u && r.post_id = p) = true
    · simp only [List.filter_cons, hpred, if_true]
      have hru : r.user_id = u ∧ r.post_id = p := by simpa using hpred
      have hnil : t.filter (fun x => x.user_id = u && x.post_id = p) = [] := by
        rw [List.filter_eq_nil_iff]
        intro x hx hpx
        have hxx : x.user_id = u ∧ x.post_id = p := by simpa using hpx
        apply hnotin
        have hm : (x.user_id, x.post_id) ∈ dbPairs t := List.mem_map.mpr ⟨x, hx, rfl⟩
        rw [hru.1, hru.2, ← hxx.1, ← hxx.2]
        exact hm
      rw [hnil]
      simp
    · have hf : (r.user_id = u && r.post_id = p) = false := by
        simpa using hpred
      simp only [List.filter_cons, hf, if_false]
      exact ih htail u p

/-! ### Claim theorems -/

/-- C1: on a non-empty pending log, when the bulk durable write does not
raise, `flush_to_db` deletes the entire pending log (the whole
`pending_views` key, including entries SADDed concurrently after the
snapshot) and returns the count of successfully parsed entries, with the
parsed entries bulk-inserted into the durable store. -/
theorem flush_nonempty_success_spec (s : SysState) (conc : List String)
    (h : s.cache.pending ≠ []) :
    (flush_to_db true conc s).1.cache.pending = [] ∧
    (flush_to_db true conc s).2 =
      some (s.cache.pending.filterMap parsePendingEntry).length ∧
    (flush_to_db true conc s).1.db =
      bulkCreateIgnore s.db (s.cache.pending.filterMap parsePendingEntry) := by
  rw [flush_ok_parts s conc h]
  exact ⟨rfl, rfl, rfl⟩

/-- C1 witness: `mark_viewed(1, [10, 20])` on the empty state, then
`flush_to_db()` returns 2, the durable store holds exactly the pairs
`(1, 10)` and `(1, 20)`, and the pending log is empty. -/
theorem flush_nonempty_success_witness :
    (({ cache := mark_viewed "100.5" 1 [10, 20] emptyCache, db := [] } :
        SysState).cache.pending ≠ []) ∧
    (flush_to_db true []
      { cache := mark_viewed "100.5" 1 [10, 20] emptyCache, db := [] }).2 = some 2 ∧
    dbPairs (flush_to_db true []
      { cache := mark_viewed "100.5" 1 [10, 20] emptyCache, db := [] }).1.db =
      [(1, 10), (1, 20)] ∧
    (flush_to_db true []
      { cache := mark_viewed "100.5" 1 [10, 20] emptyCache, db := [] }).1.cache.pending = [] := by
  refine ⟨by decide, ?_, by decide,
    (flush_nonempty_success_spec
      { cache := mark_viewed "100.5" 1 [10, 20] emptyCache, db := [] } [] (by decide)).1⟩
  rw [(flush_nonempty_success_spec
    { cache := mark_viewed "100.5" 1 [10, 20] emptyCache, db := [] } [] (by decide)).2.1]
  decide

/-- C2: when at least one pending entry parses and the bulk durable write
raises, `flush_to_db` propagates the exception (result `none`), the flusher
leaves the pending log and the durable store untouched (the delete step is
never reached; only concurrent SADDs from other tasks can change the log),
and the scheduler tick catches the error (`ok = false`). -/
theorem flush_failure_spec (s : SysState) (conc : List String)
    (h : s.cache.pending.filterMap parsePendingEntry ≠ []) :
    flush_to_db false conc s =
      ({ s with cache.pending := saddAllStr s.cache.pending conc }, none) ∧
    (flushTick false conc s).ok = false ∧
    (flushTick false conc s).state.db = s.db ∧
    (flushTick false conc s).state.cache.pending = saddAllStr s.cache.pending conc ∧
    (conc = [] → (flushTick false conc s).state = s) := by
  have hf := flush_fail_parts s conc h
  have ht : flushTick false conc s =
      ⟨{ s with cache.pending := saddAllStr s.cache.pending conc }, 0, false⟩ := by
    unfold flushTick
    rw [hf]
  refine ⟨hf, by rw [ht], by rw [ht], by rw [ht], ?_⟩
  intro hc
  subst hc
  rw [ht]
  show ({ s with cache.pending := saddAllStr s.cache.pending [] } : SysState) = s
  rfl

def cTwoState : SysState :=
  ⟨⟨fun _ => [], fun _ => none, ["1:10:1.5", "1:20:2.5", "2:10:3.5"]⟩, []⟩

/-- C2 witness: a tick with 3 parsed entries whose durable write fails
leaves exactly those 3 entries pending and the store empty; the next
successful tick flushes exactly those 3. -/
theorem flush_failure_witness :
    (cTwoState.cache.pending.filterMap parsePendingEntry ≠ []) ∧
    (flushTick false [] cTwoState).state = cTwoState ∧
    (flushTick false [] cTwoState).ok = false ∧
    (flushTick true [] (flushTick false [] cTwoState).state).flushed = 3 ∧
    dbPairs (flushTick true [] (flushTick false [] cTwoState).state).state.db =
      [(1, 10), (1, 20), (2, 10)] := by
  refine ⟨by decide, (flush_failure_spec cTwoState [] (by decide)).2.2.2.2 rfl,
    (flush_failure_spec cTwoState [] (by decide)).2.1, by decide, by decide⟩

/-- C4: a pending entry that does not parse as `(int, int, float)` after
splitting on `:` is silently skipped: the flush does not raise, the entry
contributes nothing to the returned count (dropping it from the log leaves
the parsed list unchanged), and every valid entry of the same tick still
gets its `(user_id, post_id)` pair into the durable store. -/
theorem flush_malformed_skip_spec (s : SysState) (conc : List String) (b : String)
    (hb : b ∈ s.cache.pending) (hbad : parsePendingEntry b = none) :
    (flush_to_db true conc s).2 =
      some (s.cache.pending.filterMap parsePendingEntry).length ∧
    ((s.cache.pending.erase b).filterMap parsePendingEntry =
      s.cache.pending.filterMap parsePendingEntry) ∧
    (∀ v ∈ s.cache.pending.filterMap parsePendingEntry,
      (v.user_id, v.post_id) ∈ dbPairs (flush_to_db true conc s).1.db) := by
  have hp : s.cache.pending ≠ [] := by
    intro he
    rw [he] at hb
    cases hb
  have hf := flush_ok_parts s conc hp
  refine ⟨by rw [hf], filterMap_erase_of_none _ b hbad _, ?_⟩
  intro v hv
  rw [hf]
  exact bulkCreateIgnore_pair_mem _ s.db v hv

def cFourState : SysState :=
  ⟨⟨fun _ => [], fun _ => none, ["garbage", "1:10:100.5"]⟩, []⟩

/-- C4 witness: with the malformed entry `"garbage"` next to a valid entry,
flush returns 1 without raising and the valid pair `(1, 10)` is stored. -/
theorem flush_malformed_skip_witness :
    ("garbage" ∈ cFourState.cache.pending) ∧
    parsePendingEntry "garbage" = none ∧
    (flush_to_db true [] cFourState).2 = some 1 ∧
    dbPairs (flush_to_db true [] cFourState).1.db = [(1, 10)] := by
  refine ⟨by decide, by decide, ?_, by decide⟩
  rw [(flush_malformed_skip_spec cFourState [] "garbage" (by decide) (by decide)).1]
  decide

def cFiveState : SysState := ⟨⟨fun _ => [], fun _ => none, ["garbage"]⟩, []⟩

/-- C5 counterexample: a pending log holding only the unparsable entry
`"garbage"` is non-empty, yet the first flush call returns 0, not a nonzero
count — refuting "nonzero count on the first call (if pending entries
exist)". -/
theorem flush_idempotent_counterexample :
    cFiveState.cache.pending ≠ [] ∧
    (flush_to_db true [] cFiveState).2 = some 0 ∧
    (flush_to_db true [] (flush_to_db true [] cFiveState).1).2 = some 0 := by
  decide

/-- C5 (amended): on an empty pending log flush returns 0 and changes
nothing (no durable write); a second flush with no intervening writes
always returns exactly 0; and the first call returns the parsed-entry
count, which is nonzero whenever at least one pending entry parses. -/
theorem flush_idempotent_spec (s : SysState) :
    (s.cache.pending = [] → flush_to_db true [] s = (s, some 0)) ∧
    (flush_to_db true [] (flush_to_db true [] s).1).2 = some 0 ∧
    (s.cache.pending.filterMap parsePendingEntry ≠ [] →
      (flush_to_db true [] s).2 =
        some (s.cache.pending.filterMap parsePendingEntry).length ∧
      0 < (s.cache.pending.filterMap parsePendingEntry).length) := by
  refine ⟨flush_empty_parts s, ?_, ?_⟩
  · by_cases hp : s.cache.pending = []
    · have h1 := flush_empty_parts s hp
      rw [h1]
      show (flush_to_db true [] s).2 = some 0
      rw [h1]
    · have h1 := flush_ok_parts s [] hp
      rw [h1]
      exact congrArg Prod.snd (flush_empty_parts _ rfl)
  · intro h
    have hp : s.cache.pending ≠ [] := by
      intro he
      exact h (by rw [he]; rfl)
    rw [flush_ok_parts s [] hp]
    exact ⟨rfl, List.length_pos.mpr h⟩

def cFiveGood : SysState := ⟨⟨fun _ => [], fun _ => none, ["1:10:100.5"]⟩, []⟩

/-- C5 witness: one parsable pending entry — the first flush returns 1, the
second returns exactly 0. -/
theorem flush_idempotent_witness :
    (cFiveGood.cache.pending.filterMap parsePendingEntry ≠ []) ∧
    (flush_to_db true [] cFiveGood).2 = some 1 ∧
    (flush_to_db true [] (flush_to_db true [] cFiveGood).1).2 = some 0 := by
  refine ⟨by decide, ?_, (flush_idempotent_spec cFiveGood).2.1⟩
  rw [((flush_idempotent_spec cFiveGood).2.2 (by decide)).1]
  decide

/-- C10: on a non-empty pending log in which no entry parses, flush issues
no durable write (the store is unchanged and the result cannot depend on
whether a write would succeed), yet deletes the entire pending log and
returns 0 — the malformed entries are destroyed, not retained. -/
theorem flush_allmalformed_spec (s : SysState) (wOk : Bool) (conc : List String)
    (h1 : s.cache.pending ≠ [])
    (h2 : s.cache.pending.filterMap parsePendingEntry = []) :
    flush_to_db wOk conc s = ({ s with cache.pending := [] }, some 0) ∧
    (flush_to_db wOk conc s).1.db = s.db ∧
    flush_to_db wOk conc s = flush_to_db (!wOk) conc s := by
  have hf := flush_noparse_parts s wOk conc h1 h2
  exact ⟨hf, by rw [hf], by rw [hf, flush_noparse_parts s (!wOk) conc h1 h2]⟩

def cTenState : SysState := ⟨⟨fun _ => [], fun _ => none, ["junk", "1:2"]⟩, []⟩

/-- C10 witness: two malformed entries, durable store failing — flush still
returns 0, destroys the pending log, and leaves the store untouched. -/
theorem flush_allmalformed_witness :
    cTenState.cache.pending ≠ [] ∧
    cTenState.cache.pending.filterMap parsePendingEntry = [] ∧
    (flush_to_db false [] cTenState).2 = some 0 ∧
    (flush_to_db false [] cTenState).1.cache.pending = [] ∧
    (flush_to_db false [] cTenState).1.db = [] := by
  refine ⟨by decide, by decide, ?_, ?_, ?_⟩
  · rw [(flush_allmalformed_spec cTenState false [] (by decide) (by decide)).1]
  · rw [(flush_allmalformed_spec cTenState false [] (by decide) (by decide)).1]
  · rw [(flush_allmalformed_spec cTenState false [] (by decide) (by decide)).2.1]
    rfl

/-- C3: after any finite sequence of `mark_viewed` and flush operations
starting from the empty system, the durable store holds at most one row per
`(user_id, post_id)` pair; in particular `mark_viewed(1, [10])` at two
different timestamps yields two distinct pending entries, and flushing
leaves exactly one durable row for `(1, 10)`. -/
theorem durable_unique_pair_spec (ops : List Op) (u p : Int) :
    ((applyOps initState ops).db.filter
      (fun r => r.user_id = u && r.post_id = p)).length ≤ 1 ∧
    (applyOps initState
      [Op.mark "1.0" 1 [10], Op.mark "2.0" 1 [10]]).cache.pending.length = 2 ∧
    dbPairs (applyOps initState
      [Op.mark "1.0" 1 [10], Op.mark "2.0" 1 [10], Op.flush true []]).db =
      [(1, 10)] := by
  refine ⟨?_, by decide, by decide⟩
  have h := applyOps_db_pairs_nodup ops initState (by simp [initState, dbPairs])
  exact nodup_pairs_filter_le_one _ h u p

/-- C6: `mark_viewed` on a non-empty post list adds exactly the given post
ids to the user's viewed set, adds exactly one `"{u}:{p}:{ts}"` entry per
post id to the global pending set, sets the viewed-set TTL to 604800
seconds, and touches no other user's viewed set or TTL. -/
theorem mark_viewed_spec (now : String) (u : Int) (ids : List Int)
    (c : CacheState) (h : ids ≠ []) :
    (∀ p, p ∈ (mark_viewed now u ids c).viewed u ↔ p ∈ c.viewed u ∨ p ∈ ids) ∧
    (∀ v, v ≠ u → (mark_viewed now u ids c).viewed v = c.viewed v) ∧
    (∀ e, e ∈ (mark_viewed now u ids c).pending ↔
      e ∈ c.pending ∨ ∃ p, p ∈ ids ∧ e = pendingEntry u p now) ∧
    (mark_viewed now u ids c).ttl u = some 604800 ∧
    (∀ v, v ≠ u → (mark_viewed now u ids c).ttl v = c.ttl v) := by
  have hne : ids.isEmpty = false := by simpa [List.isEmpty_iff] using h
  unfold mark_viewed
  rw [if_neg (by simp [hne])]
  refine ⟨?_, ?_, ?_, ?_, ?_⟩
  · intro p
    exact foldMark_viewed_mem now u ids c p
  · intro v hv
    exact foldMark_viewed_ne now u ids c v hv
  · intro e
    exact foldMark_pending_mem now u ids c e
  · show (if u = u then some VIEW_EXPIRY_SECONDS else (ids.foldl (markStep now u) c).ttl u) =
      some 604800
    rw [if_pos rfl]
    rfl
  · intro v hv
    show (if v = u then some VIEW_EXPIRY_SECONDS else (ids.foldl (markStep now u) c).ttl v) =
      c.ttl v
    rw [if_neg hv, foldMark_ttl]

/-- C6 witness: `mark_viewed(1, [10, 20])` at timestamp `"100.5"` on the
empty cache puts 10 in the viewed set, `"1:10:100.5"` in the pending set,
and sets the TTL to 604800. -/
theorem mark_viewed_spec_witness :
    (([10, 20] : List Int) ≠ []) ∧
    (mark_viewed "100.5" 1 [10, 20] emptyCache).ttl 1 = some 604800 ∧
    ((10 : Int) ∈ (mark_viewed "100.5" 1 [10, 20] emptyCache).viewed 1) ∧
    ("1:10:100.5" ∈ (mark_viewed "100.5" 1 [10, 20] emptyCache).pending) := by
  refine ⟨by decide,
    (mark_viewed_spec "100.5" 1 [10, 20] emptyCache (by decide)).2.2.2.1, ?_, ?_⟩
  · exact ((mark_viewed_spec "100.5" 1 [10, 20] emptyCache (by decide)).1 10).mpr
      (Or.inr (by decide))
  · exact ((mark_viewed_spec "100.5" 1 [10, 20] emptyCache (by decide)).2.2.1
      "1:10:100.5").mpr (Or.inr ⟨10, by decide, by decide⟩)

lemma filter_unviewed_mem (c : CacheState) (u : Int) (ids : List Int) (p : Int) :
    p ∈ filter_unviewed c u ids ↔ p ∈ ids ∧ p ∉ get_viewed_posts c u := by
  unfold filter_unviewed
  by_cases hids : ids.isEmpty
  · rw [if_pos hids]
    have he : ids = [] := List.isEmpty_iff.mp hids
    subst he
    simp
  · rw [if_neg hids, List.mem_filter]
    simp

/-- C7: `filter_unviewed(u, ids)` is disjoint from `get_viewed_posts(u)`,
together with `ids ∩ get_viewed_posts(u)` it covers `ids` as a set, it is a
subsequence of `ids` (input order preserved), and on empty input it returns
`[]` whatever the cache holds. -/
theorem filter_unviewed_spec (c : CacheState) (u : Int) (ids : List Int) :
    (∀ p, p ∈ filter_unviewed c u ids → p ∉ get_viewed_posts c u) ∧
    (∀ p, (p ∈ filter_unviewed c u ids ∨ (p ∈ ids ∧ p ∈ get_viewed_posts c u)) ↔
      p ∈ ids) ∧
    List.Sublist (filter_unviewed c u ids) ids ∧
    filter_unviewed c u [] = [] := by
  refine ⟨?_, ?_, ?_, rfl⟩
  · intro p hp
    exact ((filter_unviewed_mem c u ids p).mp hp).2
  · intro p
    constructor
    · rintro (hp | hp)
      · exact ((filter_unviewed_mem c u ids p).mp hp).1
      · exact hp.1
    · intro hp
      by_cases hv : p ∈ get_viewed_posts c u
      · exact Or.inr ⟨hp, hv⟩
      · exact Or.inl ((filter_unviewed_mem c u ids p).mpr ⟨hp, hv⟩)
  · unfold filter_unviewed
    by_cases hids : ids.isEmpty
    · rw [if_pos hids]
      exact List.nil_sublist ids
    · rw [if_neg hids]
      exact List.filter_sublist ids

/-- C8: `mark_viewed` with an empty post list is a complete no-op on the
cache — viewed set, TTL and pending log are all untouched — so a flush
after such a call behaves exactly as a flush without it. -/
theorem mark_viewed_empty_noop (now : String) (u : Int) (c : CacheState)
    (wOk : Bool) (conc : List String) (db : List PostView) :
    mark_viewed now u [] c = c ∧
    flush_to_db wOk conc ⟨mark_viewed now u [] c, db⟩ = flush_to_db wOk conc ⟨c, db⟩ := by
  have h : mark_viewed now u [] c = c := rfl
  exact ⟨h, by rw [h]⟩

/-- C9: the scheduler loop executes every scheduled tick — durable-write
failures included, since the tick body catches all flush errors — and
sleeps the fixed 300 seconds after each tick; over any finite schedule
(termination only by external cancellation) the tick count and total sleep
grow by exactly the schedule length and 300 times it. -/
theorem scheduler_loop_spec (sched : List (Bool × List String)) (st : SchedState) :
    (flush_views_job_run sched st).ticks = st.ticks + sched.length ∧
    (flush_views_job_run sched st).slept = st.slept + 300 * sched.length := by
  induction sched generalizing st with
  | nil => exact ⟨rfl, rfl⟩
  | cons q rest ih =>
    have hstep : flush_views_job_run (q :: rest) st =
        flush_views_job_run rest (flush_views_job_step q.1 q.2 st) := rfl
    rw [hstep]
    have h := ih (flush_views_job_step q.1 q.2 st)
    constructor
    · rw [h.1]
      show (st.ticks + 1) + rest.length = st.ticks + (rest.length + 1)
      omega
    · rw [h.2]
      show (st.slept + 300) + 300 * rest.length = st.slept + 300 * (rest.length + 1)
      ring
